import Mathlib

/-!
Shallow embedding of `src/cronScheduler.js` (class `CronScheduler`) and
verification of the specification claims about it.

Modelling conventions:
* JavaScript numbers that reach the scheduler through the frequency object are
  modelled as integers (`Int`); a frequency field can also be absent or hold a
  non-numeric value, captured by the `JSField` type.  The `typeof x === "number"`
  test of the source corresponds to the `JSField.num` constructor.
* Exceptions thrown by a method are modelled with `Except String`; the strings
  are the exact messages of the source.
* `Date.now()` instants are opaque integers supplied as explicit parameters.
* `setInterval` handles (the `intervalId` field) are natural numbers drawn from
  a counter in the scheduler state; the set of currently armed interval timers
  is the list `activeTimers`.
-/

set_option autoImplicit false

namespace Cron

/-- One field (`minutes`, `hours` or `days`) of the frequency configuration
object: absent, a number, or present but not a number. -/
inductive JSField where
  | absent
  | num (n : Int)
  | nonNum
  deriving DecidableEq, Repr

/-- The argument passed to `normalizeFrequency` (source lines 163-196): either
not an object at all (`null`, a string, ...), or an object from which the three
recognized fields are destructured. -/
inductive Frequency where
  | notObject
  | obj (minutes hours days : JSField)
  deriving DecidableEq, Repr

/-- The value returned by `normalizeFrequency`: `{ intervalMs, description }`. -/
structure NormalizedFrequency where
  intervalMs : Int
  description : String
  deriving DecidableEq, Repr

/-- Embedding of `normalizeFrequency` (source lines 163-196).  The source
starts from `intervalMs = 0`, `description = ""` and, for each of `minutes`,
`hours`, `days` in that order, when the field is a number greater than zero,
adds its millisecond weight and appends `"<n> <unit>"` with an `"s"` suffix
when the value is not 1, separated from a non-empty accumulated description by
one space; it throws when the input is not an object or when the accumulated
interval is zero. -/
def normalizeFrequency : Frequency → Except String NormalizedFrequency
  | .notObject => .error "Frequency must be an object"
  | .obj minutes hours days =>
    let acc0 : Int × String := (0, "")
    let acc1 : Int × String :=
      match minutes with
      | .num n =>
        if n > 0 then
          (acc0.1 + n * 60 * 1000,
           acc0.2 ++ (toString n ++ " minute" ++ (if n ≠ 1 then "s" else "")))
        else acc0
      | _ => acc0
    let acc2 : Int × String :=
      match hours with
      | .num n =>
        if n > 0 then
          (acc1.1 + n * 60 * 60 * 1000,
           acc1.2 ++ (if acc1.2 = "" then "" else " ")
                  ++ (toString n ++ " hour" ++ (if n ≠ 1 then "s" else "")))
        else acc1
      | _ => acc1
    let acc3 : Int × String :=
      match days with
      | .num n =>
        if n > 0 then
          (acc2.1 + n * 24 * 60 * 60 * 1000,
           acc2.2 ++ (if acc2.2 = "" then "" else " ")
                  ++ (toString n ++ " day" ++ (if n ≠ 1 then "s" else "")))
        else acc2
      | _ => acc2
    if acc3.1 = 0 then
      .error "Frequency must specify at least one valid time unit (minutes, hours, or days)"
    else
      .ok { intervalMs := acc3.1, description := acc3.2 }

/-- Whether a field holds a positive number (the condition under which the
source lets the field contribute). -/
def posNum : JSField → Bool
  | .num n => decide (0 < n)
  | _ => false

/-- Millisecond-free contribution of one field as the claim words it: absent,
non-numeric and non-positive fields count as 0. -/
def contribution : JSField → Int
  | .num n => if 0 < n then n else 0
  | _ => 0

/-- The rendering of one contributing unit as the claim words it: the numeric
value, a space, the unit name, and an `"s"` suffix exactly when the value is
not 1; `none` when the field does not contribute. -/
def unitPart (u : String) : JSField → Option String
  | .num n => if 0 < n then some (toString n ++ " " ++ u ++ (if n = 1 then "" else "s")) else none
  | _ => none

/-- The description as the claim words it: the contributing units in the order
minutes, hours, days, joined by single spaces. -/
def claimDescription (m h d : JSField) : String :=
  String.intercalate " "
    ((unitPart "minute" m).toList ++ (unitPart "hour" h).toList ++ (unitPart "day" d).toList)

/-- The task descriptor passed to `schedule`: `none` models a missing/falsy
`task` argument; `executeCallable` models `typeof task.execute === "function"`;
`name` is the optional `task.name` (JavaScript `undefined` is `none`).  The
body itself is opaque: its success or failure at each run is supplied as a
parameter of `timerFire`. -/
structure TaskDesc where
  executeCallable : Bool
  name : Option String
  deriving DecidableEq, Repr

/-- The `status` strings of a task record. -/
inductive TaskStatus where
  | scheduled
  | running
  | idle
  | error
  deriving DecidableEq, Repr

/-- The task record built by `schedule` (source lines 61-72).  The opaque
`task` closure field is not part of the record (see `TaskDesc`); `intervalId`
holds the timer handle assigned at source line 101 (in the source it is `null`
only between lines 61 and 101, an interval with no observable state). -/
structure ScheduledTask where
  id : Nat
  name : String
  frequency : NormalizedFrequency
  intervalId : Nat
  lastRun : Option Int
  nextRun : Option Int
  status : TaskStatus
  runCount : Nat
  errorCount : Nat
  deriving DecidableEq, Repr

/-- The mutable state of a `CronScheduler` instance: the `tasks` map (a JS
`Map`, modelled as an association list in insertion order), the id counter,
and the timer subsystem: a counter producing fresh `setInterval` handles and
the list of handles currently armed.  `now` is the current `Date.now()`
reading, advanced only by the environment. -/
structure SchedulerState where
  tasks : List (Nat × ScheduledTask)
  taskCounter : Nat
  nextTimerId : Nat
  activeTimers : List Nat
  now : Int
  deriving DecidableEq, Repr

/-- `Map.prototype.get` on the association list. -/
def mapGet (l : List (Nat × ScheduledTask)) (k : Nat) : Option ScheduledTask :=
  match l with
  | [] => none
  | p :: r => if p.1 = k then some p.2 else mapGet r k

/-- `Map.prototype.set` on the association list: replaces the value of an
existing key, appends a new binding otherwise. -/
def mapSet (l : List (Nat × ScheduledTask)) (k : Nat) (v : ScheduledTask) :
    List (Nat × ScheduledTask) :=
  match l with
  | [] => [(k, v)]
  | p :: r => if p.1 = k then (k, v) :: r else p :: mapSet r k v

/-- `Map.prototype.delete` on the association list (a JS `Map` holds at most
one entry per key, so removing every binding of `k` is the same removal). -/
def mapDelete (l : List (Nat × ScheduledTask)) (k : Nat) : List (Nat × ScheduledTask) :=
  match l with
  | [] => []
  | p :: r => if p.1 = k then mapDelete r k else p :: mapDelete r k

/-- The state of a scheduler right after `new CronScheduler(...)` (constructor
lines 13-15): empty task map, `taskCounter = 0`, no timers armed. -/
def freshScheduler (now : Int) : SchedulerState :=
  { tasks := [], taskCounter := 0, nextTimerId := 0, activeTimers := [], now := now }

/-- Net effect on the task record of one completed run of `executeTask`
(source lines 75-98): on entry the record is set to `running` with
`lastRun = tStart`; after the awaited body settles at `tEnd`, success
increments `runCount` and sets `status = idle` while failure (the `catch`
branch) increments `errorCount` and sets `status = error`; both set
`nextRun = tEnd + intervalMs`.  The transient `running` value is overwritten
before the run completes, so the completed-run transition shown here is what
any later observer of the record sees. -/
def executeTask (t : ScheduledTask) (success : Bool) (tStart tEnd : Int) : ScheduledTask :=
  if success then
    { t with status := .idle, lastRun := some tStart,
             runCount := t.runCount + 1, nextRun := some (tEnd + t.frequency.intervalMs) }
  else
    { t with status := .error, lastRun := some tStart,
             errorCount := t.errorCount + 1, nextRun := some (tEnd + t.frequency.intervalMs) }

/-- Embedding of `schedule` (source lines 42-113).  The source validates the
task, normalizes the frequency (both before any mutation, so a thrown error
leaves the instance as it was), then increments the counter, builds the
record, arms a recurring timer, stores the record, and, when `runImmediately`
is set, synchronously starts one extra run (whose entry prefix sets
`status = running` and `lastRun = now`; the body itself runs asynchronously
afterwards). -/
def schedule (s : SchedulerState) (task : Option TaskDesc) (freq : Frequency)
    (runImmediately : Bool) : SchedulerState × Except String Nat :=
  match task with
  | none => (s, .error "Task must have an execute method")
  | some td =>
    if ¬ td.executeCallable then (s, .error "Task must have an execute method")
    else
      match normalizeFrequency freq with
      | .error e => (s, .error e)
      | .ok nf =>
        if nf.intervalMs ≤ 0 then
          (s, .error "Invalid frequency: interval must be greater than 0")
        else
          let taskId := s.taskCounter + 1
          let taskName :=
            match td.name with
            | none => "task-" ++ toString taskId
            | some nm => if nm = "" then "task-" ++ toString taskId else nm
          let timerId := s.nextTimerId
          let rec0 : ScheduledTask :=
            { id := taskId, name := taskName, frequency := nf, intervalId := timerId,
              lastRun := none, nextRun := some (s.now + nf.intervalMs),
              status := .scheduled, runCount := 0, errorCount := 0 }
          let rec1 := if runImmediately then
              { rec0 with status := .running, lastRun := some s.now }
            else rec0
          ({ s with tasks := mapSet s.tasks taskId rec1, taskCounter := taskId,
                    nextTimerId := timerId + 1, activeTimers := timerId :: s.activeTimers },
           .ok taskId)

/-- Embedding of `cancel` (source lines 120-133): unknown ids return `false`
with no mutation; a known id has its timer cleared and its record deleted. -/
def cancel (s : SchedulerState) (taskId : Nat) : SchedulerState × Bool :=
  match mapGet s.tasks taskId with
  | none => (s, false)
  | some t =>
    ({ s with activeTimers := s.activeTimers.filter (fun i => i != t.intervalId),
              tasks := mapDelete s.tasks taskId }, true)

/-- One row of the `listTasks` result (source lines 143-152). -/
structure TaskSummary where
  id : Nat
  name : String
  status : TaskStatus
  frequency : String
  lastRun : Option Int
  nextRun : Option Int
  runCount : Nat
  errorCount : Nat
  deriving DecidableEq, Repr

/-- The projection of one record pushed by `listTasks`. -/
def taskSummary (t : ScheduledTask) : TaskSummary :=
  { id := t.id, name := t.name, status := t.status, frequency := t.frequency.description,
    lastRun := t.lastRun, nextRun := t.nextRun, runCount := t.runCount,
    errorCount := t.errorCount }

/-- Embedding of `listTasks` (source lines 139-156): a pure projection of the
registry in insertion order. -/
def listTasks (s : SchedulerState) : List TaskSummary :=
  s.tasks.map (fun p => taskSummary p.2)

/-- Embedding of `shutdown` (source lines 230-240): `clearInterval` for every
registered task, then `tasks.clear()`. -/
def shutdown (s : SchedulerState) : SchedulerState :=
  { s with
    activeTimers :=
      s.tasks.foldl (fun timers p => timers.filter (fun i => i != p.2.intervalId))
        s.activeTimers,
    tasks := [] }

/-- One completed firing of the recurring timer of task `taskId`: the interval
callback (`executeTask`, armed at source line 101) runs only while its handle
is armed; the record mutated by the closure is the one stored in the map.
`success` tells whether the opaque body settled successfully; `tStart` and
`tEnd` are the `Date.now()` readings at entry and at settlement. -/
def timerFire (s : SchedulerState) (taskId : Nat) (success : Bool)
    (tStart tEnd : Int) : SchedulerState :=
  match mapGet s.tasks taskId with
  | none => s
  | some t =>
    if t.intervalId ∈ s.activeTimers then
      { s with tasks := mapSet s.tasks taskId (executeTask t success tStart tEnd) }
    else s

/-- `n` consecutive completed firings of task `taskId`, each with a failing
body; the `k`-th firing (1-based) starts at `(ts k).1` and settles at
`(ts k).2`. -/
def fireFailN (s : SchedulerState) (taskId : Nat) (ts : Nat → Int × Int) :
    Nat → SchedulerState
  | 0 => s
  | n + 1 => timerFire (fireFailN s taskId ts n) taskId false (ts (n + 1)).1 (ts (n + 1)).2

/-- One externally triggered operation on a scheduler instance. -/
inductive Op where
  | sched (task : Option TaskDesc) (freq : Frequency) (runImmediately : Bool)
  | cancelOp (taskId : Nat)
  | fire (taskId : Nat) (success : Bool) (tStart tEnd : Int)
  | shutdownOp

/-- Runs a sequence of operations and collects, in order, the ids returned by
the successful `schedule` calls. -/
def runOps (s : SchedulerState) : List Op → SchedulerState × List Nat
  | [] => (s, [])
  | .sched td f r :: rest =>
    match (schedule s td f r).2 with
    | .ok taskId =>
      ((runOps (schedule s td f r).1 rest).1,
       taskId :: (runOps (schedule s td f r).1 rest).2)
    | .error _ => runOps (schedule s td f r).1 rest
  | .cancelOp i :: rest => runOps (cancel s i).1 rest
  | .fire i b t1 t2 :: rest => runOps (timerFire s i b t1 t2) rest
  | .shutdownOp :: rest => runOps (shutdown s) rest

/-- Consistency of the registry: the map key of every entry equals the `id`
field of its record.  `schedule` stores every record under its own id
(`this.tasks.set(taskId, scheduledTask)`), so every reachable scheduler state
satisfies this. -/
def idConsistent (s : SchedulerState) : Prop :=
  ∀ p ∈ s.tasks, p.2.id = p.1

instance (s : SchedulerState) : Decidable (idConsistent s) := by
  unfold idConsistent
  infer_instance

/-- A scheduler with one task (id 1) scheduled every minute, used as concrete
input for witnesses. -/
def exampleOneTask : SchedulerState :=
  (schedule (freshScheduler 0) (some { executeCallable := true, name := none })
    (.obj (.num 1) .absent .absent) false).1

/-- A scheduler with two tasks (ids 1 and 2), used as concrete input for
witnesses. -/
def exampleTwoTasks : SchedulerState :=
  (schedule exampleOneTask (some { executeCallable := true, name := some "second" })
    (.obj .absent (.num 2) .absent) false).1

/-- State of the node event loop restricted to a single scheduled task:
the current time (in ms since scheduling) and the settlement times of the body
invocations currently in flight.  `pending.length` is exactly the concurrency
counter of the claim: the number of invocations of the body that have started
and not yet finished. -/
structure LoopState where
  time : Nat
  pending : List Nat
  deriving DecidableEq, Repr

/-- Number of invocations of the task body currently executing. -/
def bodyInFlight (s : LoopState) : Nat := s.pending.length

/-- One millisecond of event-loop time for one task armed with
`setInterval(executeTask, intervalMs)` (source line 101) whose body takes
`durationMs` to settle.  Invocations whose settlement time has arrived
complete (leave `pending`); then, at every positive multiple of the interval,
`setInterval` invokes `executeTask` again regardless of any invocation still
in flight — `executeTask` (source lines 75-98) merely awaits its own body and
contains no re-entry guard, so the new body invocation starts immediately and
settles `durationMs` later. -/
def loopStep (intervalMs durationMs : Nat) (s : LoopState) : LoopState :=
  let pending1 := s.pending.filter (fun c => decide (s.time < c))
  let pending2 :=
    if s.time % intervalMs = 0 ∧ s.time ≠ 0 then (s.time + durationMs) :: pending1
    else pending1
  { time := s.time + 1, pending := pending2 }

/-- The event loop after `n` ms, starting at the moment the task was armed. -/
def loopRun (intervalMs durationMs : Nat) (n : Nat) : LoopState :=
  Nat.iterate (loopStep intervalMs durationMs) n { time := 0, pending := [] }

/-- The registry entry of task 1 inside `exampleTwoTasks`, spelled out; used
as a concrete input by witnesses. -/
def examplePair : Nat × ScheduledTask :=
  (1, { id := 1, name := "task-1",
        frequency := { intervalMs := 60000, description := "1 minute" },
        intervalId := 0, lastRun := none, nextRun := some 60000,
        status := .scheduled, runCount := 0, errorCount := 0 })

lemma unitPart_pos {n : Int} (hn : 0 < n) (u : String) :
    unitPart u (.num n) = some (toString n ++ " " ++ u ++ (if n = 1 then "" else "s")) := by
  simp [unitPart, hn]

lemma src_part_eq (n : Int) (u su : String) (hu : su = " " ++ u) :
    toString n ++ su ++ (if n ≠ 1 then "s" else "") =
      toString n ++ " " ++ u ++ (if n = 1 then "" else "s") := by
  subst hu
  by_cases h : n = 1 <;> simp [h, String.append_assoc]

lemma claim_part_ne_empty (n : Int) (u : String) :
    toString n ++ " " ++ u ++ (if n = 1 then "" else "s") ≠ "" := by
  intro h
  have h2 := congrArg String.data h
  simp [String.data_append] at h2

lemma intercalate_two (a b : String) : String.intercalate " " [a, b] = a ++ " " ++ b := by
  simp [String.intercalate, String.intercalate.go]

lemma intercalate_three (a b c : String) :
    String.intercalate " " [a, b, c] = a ++ " " ++ b ++ " " ++ c := by
  simp [String.intercalate, String.intercalate.go, String.append_assoc]

lemma intercalate_one (a : String) : String.intercalate " " [a] = a := by
  simp [String.intercalate, String.intercalate.go]

lemma src_minute_ne (n : Int) (s : String) : ¬ (toString n ++ " minute" ++ s = "") := by
  intro h
  have h2 := congrArg String.data h
  simp [String.data_append] at h2

lemma src_hour_ne (n : Int) (s : String) : ¬ (toString n ++ " hour" ++ s = "") := by
  intro h
  have h2 := congrArg String.data h
  simp [String.data_append] at h2

lemma sep_ne (x y : String) : ¬ (x ++ " " ++ y = "") := by
  intro h
  have h2 := congrArg String.data h
  simp [String.data_append] at h2

lemma claim_part_ne (n : Int) (u s : String) : ¬ (toString n ++ " " ++ u ++ s = "") := by
  intro h
  have h2 := congrArg String.data h
  simp [String.data_append] at h2

lemma part_minute (n : Int) :
    toString n ++ " minute" ++ (if n ≠ 1 then "s" else "") =
      toString n ++ " " ++ "minute" ++ (if n = 1 then "" else "s") :=
  src_part_eq n "minute" " minute" rfl

lemma part_hour (n : Int) :
    toString n ++ " hour" ++ (if n ≠ 1 then "s" else "") =
      toString n ++ " " ++ "hour" ++ (if n = 1 then "" else "s") :=
  src_part_eq n "hour" " hour" rfl

lemma part_day (n : Int) :
    toString n ++ " day" ++ (if n ≠ 1 then "s" else "") =
      toString n ++ " " ++ "day" ++ (if n = 1 then "" else "s") :=
  src_part_eq n "day" " day" rfl

/-- Central reformulation of `normalizeFrequency` on objects: the result is an
error precisely when the claim-side weighted sum is zero, and otherwise the
interval is that weighted sum and the description is the space-joined list of
contributing unit renderings. -/
lemma norm_obj (m h d : JSField) :
    normalizeFrequency (.obj m h d) =
      (if contribution m * 60000 + contribution h * 3600000 + contribution d * 86400000 = 0 then
        .error "Frequency must specify at least one valid time unit (minutes, hours, or days)"
      else
        .ok { intervalMs :=
                contribution m * 60000 + contribution h * 3600000 + contribution d * 86400000,
              description := claimDescription m h d }) := by
  rcases m with _ | nm | _ <;> rcases h with _ | nh | _ <;> rcases d with _ | nd | _ <;>
    (try by_cases h1 : 0 < nm) <;> (try by_cases h2 : 0 < nh) <;> (try by_cases h3 : 0 < nd) <;>
    (try simp only [normalizeFrequency, contribution, claimDescription, unitPart, h1,
      if_true, if_false, gt_iff_lt, ite_true, ite_false, Option.toList_some, Option.toList_none,
      List.nil_append, List.append_nil, List.cons_append, List.singleton_append,
      String.empty_append, src_minute_ne, src_hour_ne, sep_ne, claim_part_ne,
      part_minute, part_hour, part_day, intercalate_one, intercalate_two, intercalate_three]) <;>
    (try simp only [normalizeFrequency, contribution, claimDescription, unitPart, h2,
      if_true, if_false, gt_iff_lt, ite_true, ite_false, Option.toList_some, Option.toList_none,
      List.nil_append, List.append_nil, List.cons_append, List.singleton_append,
      String.empty_append, src_minute_ne, src_hour_ne, sep_ne, claim_part_ne,
      part_minute, part_hour, part_day, intercalate_one, intercalate_two, intercalate_three]) <;>
    (try simp only [normalizeFrequency, contribution, claimDescription, unitPart, h3,
      if_true, if_false, gt_iff_lt, ite_true, ite_false, Option.toList_some, Option.toList_none,
      List.nil_append, List.append_nil, List.cons_append, List.singleton_append,
      String.empty_append, src_minute_ne, src_hour_ne, sep_ne, claim_part_ne,
      part_minute, part_hour, part_day, intercalate_one, intercalate_two, intercalate_three]) <;>
    (try simp only [normalizeFrequency, contribution, claimDescription, unitPart,
      if_true, if_false, gt_iff_lt, ite_true, ite_false, Option.toList_some, Option.toList_none,
      List.nil_append, List.append_nil, List.cons_append, List.singleton_append,
      String.empty_append, src_minute_ne, src_hour_ne, sep_ne, claim_part_ne,
      part_minute, part_hour, part_day, intercalate_one, intercalate_two, intercalate_three]) <;>
    (try ring_nf) <;> (try rfl)

lemma contribution_nonneg (f : JSField) : 0 ≤ contribution f := by
  rcases f with _ | n | _ <;> simp [contribution] <;> split_ifs <;> omega

lemma contribution_pos {f : JSField} (hf : posNum f = true) : 0 < contribution f := by
  rcases f with _ | n | _ <;> simp_all [contribution, posNum]

lemma contribution_eq_zero {f : JSField} (hf : posNum f = false) : contribution f = 0 := by
  rcases f with _ | n | _ <;> simp_all [contribution, posNum]

lemma weighted_sum_ne_zero {m h d : JSField}
    (hpos : posNum m = true ∨ posNum h = true ∨ posNum d = true) :
    contribution m * 60000 + contribution h * 3600000 + contribution d * 86400000 ≠ 0 := by
  have hm := contribution_nonneg m
  have hh := contribution_nonneg h
  have hd := contribution_nonneg d
  rcases hpos with hp | hp | hp <;> have := contribution_pos hp <;> omega

lemma contribution_zero_iff (f : JSField) : contribution f = 0 ↔ posNum f = false := by
  rcases f with _ | n | _ <;> simp [contribution, posNum] <;> omega

lemma contribution_filter (f : JSField) :
    contribution (if posNum f then f else .absent) = contribution f := by
  rcases f with _ | n | _
  · rfl
  · by_cases hp : 0 < n <;> simp [contribution, posNum, hp]
  · rfl

lemma unitPart_filter (u : String) (f : JSField) :
    unitPart u (if posNum f then f else .absent) = unitPart u f := by
  rcases f with _ | n | _
  · rfl
  · by_cases hp : 0 < n <;> simp [unitPart, posNum, hp]
  · rfl

/-- C2: for every frequency object with at least one of `minutes`, `hours`,
`days` a positive number, `normalizeFrequency` succeeds, the interval is the
weighted sum minutes*60000 + hours*3600000 + days*86400000 (absent,
non-numeric and non-positive fields counting as 0), and the description joins
the contributing units in the order minutes, hours, days, each suffixed with
"s" exactly when its numeric value is not 1. -/
theorem C2_normalize_weighted_sum (m h d : JSField)
    (hpos : posNum m = true ∨ posNum h = true ∨ posNum d = true) :
    normalizeFrequency (.obj m h d) =
      .ok { intervalMs := contribution m * 60000 + contribution h * 3600000
              + contribution d * 86400000,
            description := claimDescription m h d } := by
  rw [norm_obj, if_neg (weighted_sum_ne_zero hpos)]

/-- Witness for C2 at the concrete input `{minutes: 5, days: 2}`. -/
theorem C2_witness :
    (posNum (.num 5) = true ∨ posNum .absent = true ∨ posNum (.num 2) = true)
    ∧ normalizeFrequency (.obj (.num 5) .absent (.num 2)) =
        .ok { intervalMs := 173100000, description := "5 minutes 2 days" } := by
  refine ⟨Or.inl (by decide), ?_⟩
  have hC2 := C2_normalize_weighted_sum (.num 5) .absent (.num 2) (Or.inl (by decide))
  rw [hC2]
  rfl

/-- C3 counterexample: the code appends the minutes unit before the hours
unit, so `{hours: 1, minutes: 30}` is rendered "30 minutes 1 hour"; the
description "1 hour 30 minutes" expected by the claim never occurs, which
refutes the claim as stated. -/
theorem C3_counterexample :
    ¬ (∃ a b, normalizeFrequency (.obj (.num 1) .absent .absent) = .ok a
        ∧ normalizeFrequency (.obj (.num 30) (.num 1) .absent) = .ok b
        ∧ a.description = "1 minute"
        ∧ b.description = "1 hour 30 minutes"
        ∧ b.intervalMs = 90 * a.intervalMs) := by
  rintro ⟨a, b, ha, hb, -, hdb, -⟩
  rw [show normalizeFrequency (.obj (.num 30) (.num 1) .absent) =
        .ok { intervalMs := 5400000, description := "30 minutes 1 hour" } from rfl] at hb
  cases hb
  exact absurd hdb (by decide)

/-- C3 amended: `{minutes: 1}` is described as "1 minute" and
`{hours: 1, minutes: 30}` as "30 minutes 1 hour" (the code lists minutes
before hours); the second interval equals exactly 90 times the first. -/
theorem C3_amended :
    ∃ a b, normalizeFrequency (.obj (.num 1) .absent .absent) = .ok a
      ∧ normalizeFrequency (.obj (.num 30) (.num 1) .absent) = .ok b
      ∧ a.description = "1 minute"
      ∧ b.description = "30 minutes 1 hour"
      ∧ b.intervalMs = 90 * a.intervalMs := by
  refine ⟨_, _, rfl, rfl, rfl, rfl, ?_⟩
  decide

/-- C6: `normalizeFrequency` fails exactly when its input is not an object or
none of the three fields is a positive number; in particular `{}` and
`{minutes: 0}` fail; and a non-numeric or non-positive field is silently
ignored: replacing every such field by an absent one never changes the
result (so in particular the call still succeeds whenever some other field
contributes a positive duration). -/
theorem C6_invalid_exactly_when_no_positive_field :
    (∀ f : Frequency, (∃ e, normalizeFrequency f = .error e) ↔
        (f = .notObject ∨ ∃ m h d, f = .obj m h d
          ∧ posNum m = false ∧ posNum h = false ∧ posNum d = false))
    ∧ (∃ e, normalizeFrequency (.obj .absent .absent .absent) = .error e)
    ∧ (∃ e, normalizeFrequency (.obj (.num 0) .absent .absent) = .error e)
    ∧ (∀ m h d : JSField,
        normalizeFrequency (.obj m h d) =
          normalizeFrequency (.obj (if posNum m then m else .absent)
            (if posNum h then h else .absent) (if posNum d then d else .absent))) := by
  refine ⟨?_, ⟨_, rfl⟩, ⟨_, rfl⟩, ?_⟩
  · intro f
    constructor
    · rintro ⟨e, he⟩
      rcases f with _ | ⟨m, h, d⟩
      · exact Or.inl rfl
      · refine Or.inr ⟨m, h, d, rfl, ?_, ?_, ?_⟩ <;>
          [skip; skip; skip] <;>
        · rw [norm_obj] at he
          by_cases hz : contribution m * 60000 + contribution h * 3600000
              + contribution d * 86400000 = 0
          · have hm := contribution_nonneg m
            have hh := contribution_nonneg h
            have hd := contribution_nonneg d
            rw [← contribution_zero_iff]
            omega
          · rw [if_neg hz] at he
            exact absurd he (by simp)
    · rintro (rfl | ⟨m, h, d, rfl, hm, hh, hd⟩)
      · exact ⟨_, rfl⟩
      · rw [norm_obj, if_pos]
        · exact ⟨_, rfl⟩
        · rw [contribution_eq_zero hm, contribution_eq_zero hh, contribution_eq_zero hd]
          ring
  · intro m h d
    rw [norm_obj, norm_obj, contribution_filter, contribution_filter, contribution_filter]
    by_cases hz : contribution m * 60000 + contribution h * 3600000
        + contribution d * 86400000 = 0
    · rw [if_pos hz, if_pos hz]
    · rw [if_neg hz, if_neg hz]
      have hcd : claimDescription m h d =
          claimDescription (if posNum m then m else .absent)
            (if posNum h then h else .absent) (if posNum d then d else .absent) := by
        rw [claimDescription, claimDescription,
          unitPart_filter, unitPart_filter, unitPart_filter]
      rw [hcd]

lemma mapGet_mapSet_self (l : List (Nat × ScheduledTask)) (k : Nat) (v : ScheduledTask) :
    mapGet (mapSet l k v) k = some v := by
  induction l with
  | nil => simp [mapSet, mapGet]
  | cons p r ih => by_cases hp : p.1 = k <;> simp [mapSet, mapGet, hp, ih]

lemma mapGet_mapSet_ne (l : List (Nat × ScheduledTask)) (k k' : Nat) (v : ScheduledTask)
    (hk : k ≠ k') : mapGet (mapSet l k v) k' = mapGet l k' := by
  induction l with
  | nil => simp [mapSet, mapGet, hk]
  | cons p r ih => by_cases hp : p.1 = k <;> simp [mapSet, mapGet, hp, hk, ih]

lemma mapGet_mapDelete_self (l : List (Nat × ScheduledTask)) (k : Nat) :
    mapGet (mapDelete l k) k = none := by
  induction l with
  | nil => rfl
  | cons p r ih => by_cases hp : p.1 = k <;> simp [mapDelete, mapGet, hp, ih]

lemma mapGet_mapDelete_ne (l : List (Nat × ScheduledTask)) (k k' : Nat) (hk : k ≠ k') :
    mapGet (mapDelete l k) k' = mapGet l k' := by
  have hk2 : ¬ k = k' := hk
  have hk3 : ¬ k' = k := fun hh => hk hh.symm
  induction l with
  | nil => rfl
  | cons p r ih =>
    by_cases hp : p.1 = k
    · simp [mapDelete, mapGet, hp, hk2, ih]
    · by_cases hp' : p.1 = k' <;> simp [mapDelete, mapGet, hp, hp', hk3, ih]

lemma mem_mapDelete (p : Nat × ScheduledTask) (l : List (Nat × ScheduledTask)) (k : Nat) :
    p ∈ mapDelete l k → p ∈ l ∧ p.1 ≠ k := by
  induction l with
  | nil =>
    intro hp
    cases hp
  | cons q r ih =>
    intro hp
    by_cases hq : q.1 = k
    · rw [mapDelete, if_pos hq] at hp
      exact ⟨List.mem_cons_of_mem q (ih hp).1, (ih hp).2⟩
    · rw [mapDelete, if_neg hq] at hp
      rcases List.mem_cons.mp hp with rfl | hp2
      · exact ⟨List.mem_cons_self p r, hq⟩
      · exact ⟨List.mem_cons_of_mem q (ih hp2).1, (ih hp2).2⟩

/-- C4: scheduling with a missing or non-callable body, or with an invalid
frequency, returns the corresponding error synchronously (the exact source
message) and the returned state is the input state: no record added, no timer
armed, counter untouched, so later successful `schedule` calls assign the same
ids as if the failing call had never happened. -/
theorem C4_schedule_invalid_leaves_state (s : SchedulerState) (task : Option TaskDesc)
    (freq : Frequency) (r : Bool) :
    (task = none →
        schedule s task freq r = (s, .error "Task must have an execute method"))
    ∧ (∀ td, task = some td → td.executeCallable = false →
        schedule s task freq r = (s, .error "Task must have an execute method"))
    ∧ (∀ td e, task = some td → td.executeCallable = true →
        normalizeFrequency freq = .error e →
        schedule s task freq r = (s, .error e)) := by
  refine ⟨?_, ?_, ?_⟩
  · rintro rfl
    rfl
  · rintro td rfl hc
    simp [schedule, hc]
  · rintro td e rfl hc hnf
    simp [schedule, hc, hnf]

/-- Witness for C4: a missing task and an all-empty frequency on a fresh
scheduler, both leaving the state untouched. -/
theorem C4_witness :
    schedule (freshScheduler 0) none (.obj (.num 1) .absent .absent) false =
        (freshScheduler 0, .error "Task must have an execute method")
    ∧ schedule (freshScheduler 0) (some { executeCallable := true, name := none })
        (.obj .absent .absent .absent) false =
        (freshScheduler 0,
         .error "Frequency must specify at least one valid time unit (minutes, hours, or days)") :=
  ⟨(C4_schedule_invalid_leaves_state (freshScheduler 0) none
      (.obj (.num 1) .absent .absent) false).1 rfl,
   (C4_schedule_invalid_leaves_state (freshScheduler 0)
      (some { executeCallable := true, name := none })
      (.obj .absent .absent .absent) false).2.2 _
      "Frequency must specify at least one valid time unit (minutes, hours, or days)"
      rfl rfl rfl⟩

/-- C8: `cancel` is a total function (it never throws); on a registered id it
returns `true`, removes the record (so the id is gone from the registry and
from `listTasks`) and disarms the task's timer; on an unknown id it returns
`false` and the state is exactly the input state; a second `cancel` of the
same id is a no-op on the state, so `cancel` is idempotent after the first
call. -/
lemma cancel_none {s : SchedulerState} {i : Nat} (hget : mapGet s.tasks i = none) :
    cancel s i = (s, false) := by
  simp [cancel, hget]

lemma cancel_some {s : SchedulerState} {i : Nat} {t : ScheduledTask}
    (hget : mapGet s.tasks i = some t) :
    cancel s i =
      ({ s with activeTimers := s.activeTimers.filter (fun x => x != t.intervalId),
                tasks := mapDelete s.tasks i }, true) := by
  simp [cancel, hget]

theorem C8_cancel_spec (s : SchedulerState) (i : Nat) (hwf : idConsistent s) :
    (∀ t, mapGet s.tasks i = some t →
        (cancel s i).2 = true
        ∧ mapGet (cancel s i).1.tasks i = none
        ∧ t.intervalId ∉ (cancel s i).1.activeTimers
        ∧ (∀ e ∈ listTasks (cancel s i).1, e.id ≠ i))
    ∧ (mapGet s.tasks i = none → (cancel s i).2 = false ∧ (cancel s i).1 = s)
    ∧ (cancel (cancel s i).1 i).1 = (cancel s i).1 := by
  rcases hget : mapGet s.tasks i with _ | t
  · refine ⟨?_, ?_, ?_⟩
    · intro t ht
      cases ht
    · intro _
      rw [cancel_none hget]
      exact ⟨rfl, rfl⟩
    · rw [cancel_none hget, cancel_none hget]
  · have hcancel := cancel_some hget
    have hdel : mapGet (cancel s i).1.tasks i = none := by
      rw [hcancel]
      exact mapGet_mapDelete_self s.tasks i
    refine ⟨?_, ?_, ?_⟩
    · intro t' ht'
      cases ht'
      refine ⟨by rw [hcancel], hdel, ?_, ?_⟩
      · rw [hcancel]
        intro hmem
        simp [List.mem_filter] at hmem
      · intro e he
        rw [hcancel] at he
        rcases List.mem_map.mp he with ⟨p, hp, rfl⟩
        have hmem := mem_mapDelete p _ _ hp
        have hid := hwf p hmem.1
        simpa [taskSummary, hid] using hmem.2
    · intro h0
      cases h0
    · rw [(cancel_none hdel : cancel (cancel s i).1 i = ((cancel s i).1, false))]

/-- Witness for C8: on the two-task example, cancelling id 1 succeeds and
removes it; cancelling the unknown id 5 returns false and changes nothing. -/
theorem C8_witness :
    ((cancel exampleTwoTasks 1).2 = true
      ∧ mapGet (cancel exampleTwoTasks 1).1.tasks 1 = none)
    ∧ ((cancel exampleTwoTasks 5).2 = false ∧ (cancel exampleTwoTasks 5).1 = exampleTwoTasks) := by
  have h1 := (C8_cancel_spec exampleTwoTasks 1 (by decide)).1 examplePair.2 (by decide)
  have h5 := (C8_cancel_spec exampleTwoTasks 5 (by decide)).2.1 (by decide)
  exact ⟨⟨h1.1, h1.2.1⟩, h5⟩

lemma foldl_filter_subset (l : List (Nat × ScheduledTask)) (acc : List Nat) (x : Nat)
    (hx : x ∈ l.foldl (fun timers q => timers.filter (fun k => k != q.2.intervalId)) acc) :
    x ∈ acc := by
  induction l generalizing acc with
  | nil => exact hx
  | cons q r ih =>
    have hsub := ih (acc.filter (fun k => k != q.2.intervalId)) hx
    exact (List.mem_filter.mp hsub).1

lemma not_mem_shutdown_timers (l : List (Nat × ScheduledTask)) (p : Nat × ScheduledTask) :
    p ∈ l → ∀ acc : List Nat,
      p.2.intervalId ∉
        l.foldl (fun timers q => timers.filter (fun k => k != q.2.intervalId)) acc := by
  induction l with
  | nil =>
    intro hp _
    cases hp
  | cons q r ih =>
    intro hp acc
    rcases List.mem_cons.mp hp with rfl | hp2
    · intro hmem
      have hsub := foldl_filter_subset r _ _ hmem
      simp [List.mem_filter] at hsub
    · exact ih hp2 _

/-- C9: `shutdown` is a total function (it never throws), removes every record
from the registry — `listTasks` is empty immediately afterwards however many
tasks were registered — and disarms the timer of every registered task. -/
theorem C9_shutdown_spec (s : SchedulerState) :
    listTasks (shutdown s) = []
    ∧ (shutdown s).tasks = []
    ∧ ∀ p ∈ s.tasks, p.2.intervalId ∉ (shutdown s).activeTimers := by
  refine ⟨rfl, rfl, ?_⟩
  intro p hp
  exact not_mem_shutdown_timers s.tasks p hp s.activeTimers

/-- Witness for C9: shutting down the two-task example empties the list and
disarms the concrete timer of task 1. -/
theorem C9_witness :
    examplePair ∈ exampleTwoTasks.tasks
    ∧ listTasks (shutdown exampleTwoTasks) = []
    ∧ examplePair.2.intervalId ∉ (shutdown exampleTwoTasks).activeTimers :=
  ⟨by decide, (C9_shutdown_spec exampleTwoTasks).1,
   (C9_shutdown_spec exampleTwoTasks).2.2 examplePair (by decide)⟩

lemma schedule_result_counter (s s' : SchedulerState) (t : Option TaskDesc) (f : Frequency)
    (r : Bool) (hc : s.taskCounter = s'.taskCounter) :
    (schedule s t f r).2 = (schedule s' t f r).2 := by
  rcases t with - | td
  · rfl
  · by_cases hcall : td.executeCallable
    · rcases hnf : normalizeFrequency f with e | nf
      · simp [schedule, hcall, hnf]
      · by_cases hint : nf.intervalMs ≤ 0
        · simp [schedule, hcall, hnf, hint]
        · simp [schedule, hcall, hnf, hint, hc]
    · simp [schedule, hcall]

/-- C10: cancelling task `i` leaves the registry record of every other
registered task `j` completely unchanged (every field, including the timer
handle), leaves the id counter unchanged, and therefore later `schedule`
calls return the same outcome (same assigned ids) as without the
cancellation. -/
theorem C10_cancel_frames_other_tasks (s : SchedulerState) (i j : Nat) (hij : i ≠ j)
    (hi : (mapGet s.tasks i).isSome = true) (hj : (mapGet s.tasks j).isSome = true) :
    mapGet (cancel s i).1.tasks j = mapGet s.tasks j
    ∧ (cancel s i).1.taskCounter = s.taskCounter
    ∧ ∀ t f r, (schedule (cancel s i).1 t f r).2 = (schedule s t f r).2 := by
  rcases hget : mapGet s.tasks i with - | ti
  · rw [hget] at hi
    cases hi
  · have hcancel : (cancel s i).1 =
        { s with activeTimers := s.activeTimers.filter (fun x => x != ti.intervalId),
                 tasks := mapDelete s.tasks i } := by
      simp [cancel, hget]
    refine ⟨?_, ?_, ?_⟩
    · rw [hcancel]
      exact mapGet_mapDelete_ne s.tasks i j hij
    · rw [hcancel]
    · intro t f r
      exact schedule_result_counter _ s t f r (by rw [hcancel])

/-- Witness for C10: cancelling task 1 of the two-task example leaves task 2's
record and the counter untouched. -/
theorem C10_witness :
    mapGet (cancel exampleTwoTasks 1).1.tasks 2 = mapGet exampleTwoTasks.tasks 2
    ∧ (cancel exampleTwoTasks 1).1.taskCounter = exampleTwoTasks.taskCounter :=
  ⟨(C10_cancel_frames_other_tasks exampleTwoTasks 1 2 (by decide) (by decide) (by decide)).1,
   (C10_cancel_frames_other_tasks exampleTwoTasks 1 2 (by decide) (by decide) (by decide)).2.1⟩

lemma schedule_ok_state (s : SchedulerState) (td : TaskDesc) (f : Frequency) (r : Bool)
    (nf : NormalizedFrequency) (hcall : td.executeCallable = true)
    (hnf : normalizeFrequency f = .ok nf) (hint : ¬ nf.intervalMs ≤ 0) :
    schedule s (some td) f r =
      ({ s with
          tasks := mapSet s.tasks (s.taskCounter + 1)
            (if r then
              { id := s.taskCounter + 1,
                name := match td.name with
                  | none => "task-" ++ toString (s.taskCounter + 1)
                  | some nm => if nm = "" then "task-" ++ toString (s.taskCounter + 1) else nm,
                frequency := nf, intervalId := s.nextTimerId,
                lastRun := some s.now, nextRun := some (s.now + nf.intervalMs),
                status := .running, runCount := 0, errorCount := 0 }
            else
              { id := s.taskCounter + 1,
                name := match td.name with
                  | none => "task-" ++ toString (s.taskCounter + 1)
                  | some nm => if nm = "" then "task-" ++ toString (s.taskCounter + 1) else nm,
                frequency := nf, intervalId := s.nextTimerId,
                lastRun := none, nextRun := some (s.now + nf.intervalMs),
                status := .scheduled, runCount := 0, errorCount := 0 }),
          taskCounter := s.taskCounter + 1,
          nextTimerId := s.nextTimerId + 1,
          activeTimers := s.nextTimerId :: s.activeTimers },
       .ok (s.taskCounter + 1)) := by
  by_cases hr : r <;> simp [schedule, hcall, hnf, hint, hr]

lemma schedule_ok_record {s : SchedulerState} {t : Option TaskDesc} {f : Frequency} {r : Bool}
    {i : Nat} (h : (schedule s t f r).2 = .ok i) :
    i = s.taskCounter + 1
    ∧ (schedule s t f r).1.taskCounter = s.taskCounter + 1
    ∧ ∃ rec, mapGet (schedule s t f r).1.tasks i = some rec
        ∧ rec.id = i ∧ rec.runCount = 0 ∧ rec.errorCount = 0
        ∧ rec.intervalId ∈ (schedule s t f r).1.activeTimers := by
  rcases t with _ | td
  · simp [schedule] at h
  · by_cases hcall : td.executeCallable
    · rcases hnf : normalizeFrequency f with e | nf
      · simp [schedule, hcall, hnf] at h
      · by_cases hint : nf.intervalMs ≤ 0
        · simp [schedule, hcall, hnf, hint] at h
        · have hsched := schedule_ok_state s td f r nf hcall hnf hint
          have hi : i = s.taskCounter + 1 := by
            rw [hsched] at h
            exact (Except.ok.inj h).symm
          subst hi
          rw [hsched]
          refine ⟨rfl, rfl, ?_⟩
          refine ⟨_, mapGet_mapSet_self _ _ _, ?_, ?_, ?_, ?_⟩ <;>
            by_cases hr : r <;> simp [hr]
    · simp [schedule, hcall] at h

lemma schedule_error_state {s : SchedulerState} {t : Option TaskDesc} {f : Frequency} {r : Bool}
    {e : String} (h : (schedule s t f r).2 = .error e) : (schedule s t f r).1 = s := by
  rcases t with _ | td
  · rfl
  · by_cases hcall : td.executeCallable
    · rcases hnf : normalizeFrequency f with e' | nf
      · simp [schedule, hcall, hnf]
      · by_cases hint : nf.intervalMs ≤ 0
        · simp [schedule, hcall, hnf, hint]
        · simp [schedule, hcall, hnf, hint] at h
    · simp [schedule, hcall]

lemma executeTask_false (rec : ScheduledTask) (a b : Int) :
    executeTask rec false a b =
      { rec with status := .error, lastRun := some a,
                 errorCount := rec.errorCount + 1,
                 nextRun := some (b + rec.frequency.intervalMs) } := by
  simp [executeTask]

lemma timerFire_armed {s : SchedulerState} {i : Nat} {t : ScheduledTask}
    (hget : mapGet s.tasks i = some t) (harm : t.intervalId ∈ s.activeTimers)
    (b : Bool) (t1 t2 : Int) :
    timerFire s i b t1 t2 = { s with tasks := mapSet s.tasks i (executeTask t b t1 t2) } := by
  simp [timerFire, hget, harm]

lemma fireFailN_spec (s1 : SchedulerState) (i : Nat) (ts : Nat → Int × Int)
    (rec0 : ScheduledTask) (h0 : mapGet s1.tasks i = some rec0)
    (harm : rec0.intervalId ∈ s1.activeTimers) :
    ∀ n : Nat, ∃ rec, mapGet (fireFailN s1 i ts n).tasks i = some rec
      ∧ rec.id = rec0.id
      ∧ rec.intervalId = rec0.intervalId
      ∧ rec.frequency = rec0.frequency
      ∧ rec.runCount = rec0.runCount
      ∧ rec.errorCount = rec0.errorCount + n
      ∧ (fireFailN s1 i ts n).activeTimers = s1.activeTimers
      ∧ (1 ≤ n → rec.status = .error
          ∧ rec.nextRun = some ((ts n).2 + rec0.frequency.intervalMs)) := by
  intro n
  induction n with
  | zero => exact ⟨rec0, h0, rfl, rfl, rfl, rfl, rfl, rfl, by omega⟩
  | succ k ih =>
    rcases ih with ⟨rec, hget, hid, hint, hfreq, hrun, herr, htimers, -⟩
    have harm2 : rec.intervalId ∈ (fireFailN s1 i ts k).activeTimers := by
      rw [htimers, hint]
      exact harm
    have hstep := timerFire_armed hget harm2 false (ts (k + 1)).1 (ts (k + 1)).2
    refine ⟨executeTask rec false (ts (k + 1)).1 (ts (k + 1)).2, ?_, ?_, ?_, ?_, ?_, ?_, ?_, ?_⟩
    · rw [fireFailN, hstep]
      exact mapGet_mapSet_self _ _ _
    · rw [executeTask_false]
      exact hid
    · rw [executeTask_false]
      exact hint
    · rw [executeTask_false]
      exact hfreq
    · rw [executeTask_false]
      exact hrun
    · rw [executeTask_false]
      simp [herr]
      omega
    · rw [fireFailN, hstep]
      exact htimers
    · intro _
      rw [executeTask_false, hfreq]
      exact ⟨rfl, rfl⟩

lemma mapGet_some_mem (l : List (Nat × ScheduledTask)) (k : Nat) (v : ScheduledTask) :
    mapGet l k = some v → (k, v) ∈ l := by
  induction l with
  | nil =>
    intro h
    cases h
  | cons p r ih =>
    intro h
    rw [mapGet] at h
    by_cases hp : p.1 = k
    · rw [if_pos hp] at h
      cases h
      rcases p with ⟨pk, pv⟩
      have hk : pk = k := hp
      subst hk
      exact List.mem_cons_self _ _
    · rw [if_neg hp] at h
      exact List.mem_cons_of_mem p (ih h)

/-- C5: schedule a task, then let its recurring timer fire and complete `n`
times with the body throwing each time.  Afterwards the registry still holds
the task (it appears in `listTasks` and its timer is still armed) with
`errorCount = n`, `runCount = 0` and, once `n ≥ 1`, `status = error` and
`nextRun` equal to the settlement instant of the last firing plus the task's
interval.  `timerFire` and `fireFailN` are total: the error raised by the body
is absorbed by the `catch` inside the run routine and never reaches any
caller. -/
theorem C5_always_failing_body (s : SchedulerState) (t : Option TaskDesc) (f : Frequency)
    (i : Nat) (ts : Nat → Int × Int) (n : Nat)
    (hok : (schedule s t f false).2 = .ok i) :
    ∃ rec, mapGet (fireFailN (schedule s t f false).1 i ts n).tasks i = some rec
      ∧ rec.errorCount = n
      ∧ rec.runCount = 0
      ∧ (1 ≤ n → rec.status = .error)
      ∧ (1 ≤ n → rec.nextRun = some ((ts n).2 + rec.frequency.intervalMs))
      ∧ rec.id = i
      ∧ taskSummary rec ∈ listTasks (fireFailN (schedule s t f false).1 i ts n)
      ∧ rec.intervalId ∈ (fireFailN (schedule s t f false).1 i ts n).activeTimers := by
  rcases schedule_ok_record hok with ⟨-, -, rec0, hget0, hid0, hrun0, herr0, harm0⟩
  rcases fireFailN_spec (schedule s t f false).1 i ts rec0 hget0 harm0 n with
    ⟨rec, hget, hid, hint, hfreq, hrun, herr, htimers, hlast⟩
  refine ⟨rec, hget, by omega, by omega, fun hn => (hlast hn).1, ?_, by omega, ?_, ?_⟩
  · intro hn
    rw [(hlast hn).2, hfreq]
  · exact List.mem_map_of_mem (fun p => taskSummary p.2) (mapGet_some_mem _ _ _ hget)
  · rw [htimers, hint]
    exact harm0

/-- Witness for C5: a task scheduled every minute on a fresh scheduler whose
body fails on both of the first two firings. -/
theorem C5_witness :
    ∃ rec,
      mapGet (fireFailN (schedule (freshScheduler 0)
          (some { executeCallable := true, name := none })
          (.obj (.num 1) .absent .absent) false).1 1
          (fun k => (60000 * (k : Int), 60000 * (k : Int))) 2).tasks 1 = some rec
      ∧ rec.errorCount = 2
      ∧ rec.runCount = 0
      ∧ rec.status = .error := by
  rcases C5_always_failing_body (freshScheduler 0)
      (some { executeCallable := true, name := none })
      (.obj (.num 1) .absent .absent) 1
      (fun k => (60000 * (k : Int), 60000 * (k : Int))) 2 rfl with
    ⟨rec, hget, herr, hrun, hstat, -, -, -, -⟩
  exact ⟨rec, hget, herr, hrun, hstat (by omega)⟩

lemma cancel_counter (s : SchedulerState) (i : Nat) :
    (cancel s i).1.taskCounter = s.taskCounter := by
  rcases hget : mapGet s.tasks i with _ | t
  · rw [cancel_none hget]
  · rw [cancel_some hget]

lemma timerFire_counter (s : SchedulerState) (i : Nat) (b : Bool) (t1 t2 : Int) :
    (timerFire s i b t1 t2).taskCounter = s.taskCounter := by
  rcases hget : mapGet s.tasks i with _ | t
  · simp [timerFire, hget]
  · by_cases harm : t.intervalId ∈ s.activeTimers
    · rw [timerFire_armed hget harm]
    · simp [timerFire, hget, harm]

lemma runOps_ids (ops : List Op) : ∀ s : SchedulerState,
    (runOps s ops).2 =
      List.range' (s.taskCounter + 1) ((runOps s ops).1.taskCounter - s.taskCounter)
    ∧ s.taskCounter ≤ (runOps s ops).1.taskCounter := by
  induction ops with
  | nil =>
    intro s
    simp [runOps]
  | cons op rest ih =>
    intro s
    cases op with
    | sched td f r =>
      rcases hres : (schedule s td f r).2 with e | taskId
      · have hstate := schedule_error_state hres
        have h2 := ih (schedule s td f r).1
        rw [hstate] at h2
        simpa [runOps, hres, hstate] using h2
      · rcases schedule_ok_record hres with ⟨hi, hcnt, -⟩
        have h2 := ih (schedule s td f r).1
        rw [hcnt] at h2
        have hle := h2.2
        have hsplit : (runOps (schedule s td f r).1 rest).1.taskCounter - s.taskCounter =
            ((runOps (schedule s td f r).1 rest).1.taskCounter - (s.taskCounter + 1)) + 1 := by
          omega
        refine ⟨?_, ?_⟩
        · simp only [runOps, hres]
          rw [hsplit, List.range'_succ, h2.1, hi]
        · simp only [runOps, hres]
          omega
    | cancelOp i =>
      have h2 := ih (cancel s i).1
      rw [cancel_counter] at h2
      simpa [runOps] using h2
    | fire i b t1 t2 =>
      have h2 := ih (timerFire s i b t1 t2)
      rw [timerFire_counter] at h2
      simpa [runOps] using h2
    | shutdownOp =>
      have h2 := ih (shutdown s)
      have hcnt : (shutdown s).taskCounter = s.taskCounter := rfl
      rw [hcnt] at h2
      simpa [runOps] using h2

/-- C7: starting from a fresh scheduler, whatever sequence of operations is
performed (arbitrary valid or invalid schedules, cancels, timer firings and
shutdowns, in any interleaving), the ids returned by the successful
`schedule` calls are exactly 1, 2, ..., k in order; hence they start at 1,
are strictly increasing, and are never reused — also not after the task
carrying an id has been cancelled. -/
theorem C7_ids_strictly_increasing (now : Int) (ops : List Op) :
    (runOps (freshScheduler now) ops).2 =
      List.range' 1 ((runOps (freshScheduler now) ops).1.taskCounter)
    ∧ List.Pairwise (· < ·) (runOps (freshScheduler now) ops).2
    ∧ (runOps (freshScheduler now) ops).2.Nodup := by
  have h := (runOps_ids ops (freshScheduler now)).1
  have hzero : (freshScheduler now).taskCounter = 0 := rfl
  rw [hzero] at h
  simp only [Nat.zero_add, Nat.sub_zero] at h
  refine ⟨h, ?_, ?_⟩
  · rw [h]
    have hp := List.pairwise_lt_range' 1 ((runOps (freshScheduler now) ops).1.taskCounter)
      1 (by omega)
    simpa using hp
  · rw [h]
    exact List.nodup_range' _ _

/-- C1 fails on the code: `schedule` arms a plain
`setInterval(executeTask, intervalMs)` and `executeTask` awaits only its own
body, with no guard against re-entry, so when a body takes longer than the
interval the next tick starts a second invocation while the first is still in
flight.  Concretely, with an interval of 2 time units and a body settling
after 3 (the time unit is arbitrary — the firing pattern depends only on the
duration-to-interval ratio, so this is the scaled image of a one-minute task
whose body takes 90 seconds), 5 units after scheduling two invocations of the
body are executing at once: the concurrency counter of the claim observes 2,
violating the claimed bound of 1. -/
theorem C1_overlapping_invocations :
    bodyInFlight (loopRun 2 3 5) = 2 ∧ 1 < bodyInFlight (loopRun 2 3 5) := by
  decide

end Cron
